import Mathlib

/-!
# LetsGoChat: broker fan-out and gateway bridging

A shallow embedding of `broker/broker.go` and `chat-server/main.go`.

* A Go `map[K]bool` whose values are always `true` is a duplicate-free list of
  keys (`GoMap`).  The list order stands for the order in which a `range`
  statement visits the keys; Go leaves that order unspecified, and every
  statement below is quantified over all such lists.
* Calls that leave the process (`sub.Send`, `ws.ReadMessage`,
  `client.WriteMessage`, the gRPC client calls) take their outcome from an
  argument: `none` is Go's `nil` error, `some e` is a non-nil error.
* What a function does to the outside world is returned as a list of effects,
  in program order.
-/

namespace LetsGoChat

/-! ## Data model -/

/-- Go's `error` values, as their text. -/
abbrev Error := String

/-- A `[]byte` payload. -/
abbrev Bytes := List UInt8

/-- The message `pb.ChatMessage`: one field, `Body`. -/
structure ChatMessage where
  Body : Bytes
deriving DecidableEq, Repr

/-- The message `pb.Empty`. -/
structure Empty where
deriving DecidableEq, Repr

/-- A `pb.ChatService_ReceiveMessagesServer` stream; its identity is the stream object. -/
abbrev Stream := Nat

/-- A `*websocket.Conn`; its identity is the pointer. -/
abbrev Conn := Nat

/-- A Go `map[K]bool` holding only `true`: its keys, without repetition. -/
structure GoMap (K : Type) where
  keys : List K
  nodup : keys.Nodup

namespace GoMap

variable {K : Type} [DecidableEq K]

/-- The result of `make(map[K]bool)`. -/
def empty : GoMap K := ⟨[], List.nodup_nil⟩

/-- The assignment `m[k] = true`. -/
def insert (m : GoMap K) (k : K) : GoMap K :=
  if h : k ∈ m.keys then m else ⟨k :: m.keys, List.nodup_cons.mpr ⟨h, m.nodup⟩⟩

/-- The statement `delete(m, k)`. -/
def delete (m : GoMap K) (k : K) : GoMap K :=
  ⟨m.keys.erase k, m.nodup.erase k⟩

/-- Whether `k` is a key of the map. -/
def contains (m : GoMap K) (k : K) : Bool := decide (k ∈ m.keys)

end GoMap

/-! ## The broker (`broker/broker.go`) -/

/-- The struct `brokerServer`: the subscribers map (the mutex is the atomicity of each function below). -/
structure brokerServer where
  subscribers : GoMap Stream

/-- The constructor `newBrokerServer`. -/
def newBrokerServer : brokerServer := ⟨GoMap.empty⟩

/-- What the broker does to the outside world. -/
inductive BrokerEffect where
  | send (sub : Stream) (msg : ChatMessage) (err : Option Error)
  | log (text : String)
deriving DecidableEq, Repr

/-- The loop `for sub := range s.subscribers` of `BroadcastMessage`, over the keys still to visit. -/
def broadcastLoop (Send : Stream → ChatMessage → Option Error) (msg : ChatMessage) :
    List Stream → List BrokerEffect
  | [] => []
  | sub :: rest =>
    match Send sub msg with
    | some err =>
      BrokerEffect.send sub msg (some err)
        :: BrokerEffect.log ("could not send message to a subscriber: " ++ err)
        :: broadcastLoop Send msg rest
    | none => BrokerEffect.send sub msg none :: broadcastLoop Send msg rest

/-- What `BroadcastMessage` returns and leaves behind. -/
structure BroadcastResult where
  server : brokerServer
  effects : List BrokerEffect
  resp : Option Empty
  err : Option Error

/-- The method `brokerServer.BroadcastMessage`. -/
def BroadcastMessage (s : brokerServer) (msg : ChatMessage)
    (Send : Stream → ChatMessage → Option Error) : BroadcastResult :=
  { server := s
    effects := broadcastLoop Send msg s.subscribers.keys
    resp := some {}
    err := none }

/-- The first half of `ReceiveMessages`, up to the wait on `stream.Context().Done()`. -/
def ReceiveMessages_register (s : brokerServer) (stream : Stream) :
    brokerServer × List BrokerEffect :=
  ({ subscribers := s.subscribers.insert stream }, [BrokerEffect.log "New chat server subscribed."])

/-- The second half of `ReceiveMessages`, from the moment `Done()` is closed; returns `nil`. -/
def ReceiveMessages_cleanup (s : brokerServer) (stream : Stream) :
    brokerServer × List BrokerEffect × Option Error :=
  ({ subscribers := s.subscribers.delete stream }, [BrokerEffect.log "A chat server unsubscribed."], none)

/-- The send attempts among a list of effects, in order. -/
def sendAttempts : List BrokerEffect → List (Stream × ChatMessage × Option Error)
  | [] => []
  | BrokerEffect.send sub msg err :: rest => (sub, msg, err) :: sendAttempts rest
  | BrokerEffect.log _ :: rest => sendAttempts rest

/-- The handles that were sent to, in order. -/
def sendTargets (effs : List BrokerEffect) : List Stream :=
  (sendAttempts effs).map (fun a => a.1)

/-- The copies of a message that reached the handle `sub`: the sends on it that returned `nil`. -/
def copiesReceived (effs : List BrokerEffect) (sub : Stream) : List ChatMessage :=
  ((sendAttempts effs).filter (fun a => decide (a.1 = sub) && a.2.2.isNone)).map (fun a => a.2.1)

/-- One scheduling step of the broker: a gateway subscribes, a subscriber's context is
cancelled, or a gateway publishes. -/
inductive BrokerStep where
  | subscribe (stream : Stream)
  | cancelled (stream : Stream)
  | publish (msg : ChatMessage) (Send : Stream → ChatMessage → Option Error)

/-- The broker's state and effects after one step; each step runs under `s.mu`. -/
def brokerStep (s : brokerServer) : BrokerStep → brokerServer × List BrokerEffect
  | BrokerStep.subscribe stream => ReceiveMessages_register s stream
  | BrokerStep.cancelled stream =>
    ((ReceiveMessages_cleanup s stream).1, (ReceiveMessages_cleanup s stream).2.1)
  | BrokerStep.publish msg Send =>
    ((BroadcastMessage s msg Send).server, (BroadcastMessage s msg Send).effects)

/-- The broker's state and effects after a sequence of steps. -/
def brokerRun (s : brokerServer) : List BrokerStep → brokerServer × List BrokerEffect
  | [] => (s, [])
  | st :: rest =>
    ((brokerRun (brokerStep s st).1 rest).1,
      (brokerStep s st).2 ++ (brokerRun (brokerStep s st).1 rest).2)

/-! ## The gateway (`chat-server/main.go`) -/

/-- The constant `websocket.TextMessage` of gorilla/websocket. -/
def TextMessage : Nat := 1

/-- The constant `time.Second` of Go's standard library, in nanoseconds. -/
def Second : Nat := 1000000000

/-- The struct `server`: the clients map (the gRPC client is passed to each function). -/
structure server where
  clients : GoMap Conn

/-- The constructor `newServer`. -/
def newServer : server := ⟨GoMap.empty⟩

/-- What the gateway does to the outside world. -/
inductive GwEffect where
  | log (text : String)
  | publish (msg : ChatMessage) (err : Option Error)
  | subscribe (err : Option Error)
  | recvFailed (err : Error)
  | sleep (ns : Nat)
  | spawn
  | write (client : Conn) (messageType : Nat) (data : Bytes) (err : Option Error)
  | close (client : Conn)
  | fatal (text : String)
deriving DecidableEq, Repr

/-- What `ws.ReadMessage()` returned. -/
inductive ReadResult where
  | frame (msg : Bytes)
  | fail (err : Error)
deriving DecidableEq, Repr

/-- Lines 50-53 of `serveWs`: the new connection is put in the clients map. -/
def serveWs_register (s : server) (ws : Conn) : server × List GwEffect :=
  ({ clients := s.clients.insert ws }, [GwEffect.log "New client connected"])

/-- Lines 66-69 of `serveWs`: one frame is handed to the broker. -/
def serveWs_frame (BroadcastMessage : ChatMessage → Option Error) (msg : Bytes) : List GwEffect :=
  match BroadcastMessage { Body := msg } with
  | some err =>
    [GwEffect.publish { Body := msg } (some err),
      GwEffect.log ("could not broadcast message via gRPC: " ++ err)]
  | none => [GwEffect.publish { Body := msg } none]

/-- Lines 58-63 of `serveWs`: the read failed. -/
def serveWs_readFail (s : server) (ws : Conn) (err : Error) : server × List GwEffect :=
  ({ clients := s.clients.delete ws }, [GwEffect.log ("Client disconnected: " ++ err)])

/-- The `for` loop of `serveWs` over the results of the successive `ReadMessage` calls; `n` is
the number of publishes issued so far.  The flag is `true` when the loop reached `break`, and
`false` when the reads ran out (the goroutine waits in `ReadMessage`). -/
def serveWsLoop (ws : Conn) (BroadcastMessage : Nat → ChatMessage → Option Error) :
    List ReadResult → Nat → server → server × List GwEffect × Bool
  | [], _, s => (s, [], false)
  | ReadResult.fail err :: _, _, s =>
    ((serveWs_readFail s ws err).1, (serveWs_readFail s ws err).2, true)
  | ReadResult.frame msg :: rest, n, s =>
    ((serveWsLoop ws BroadcastMessage rest (n + 1) s).1,
      serveWs_frame (BroadcastMessage n) msg ++ (serveWsLoop ws BroadcastMessage rest (n + 1) s).2.1,
      (serveWsLoop ws BroadcastMessage rest (n + 1) s).2.2)

/-- The handler `server.serveWs`; the deferred `ws.Close()` runs when the function returns. -/
def serveWs (s : server) (Upgrade : Except Error Conn)
    (BroadcastMessage : Nat → ChatMessage → Option Error) (reads : List ReadResult) :
    server × List GwEffect × Bool :=
  match Upgrade with
  | Except.error err => (s, [GwEffect.log err], true)
  | Except.ok ws =>
    let r := serveWsLoop ws BroadcastMessage reads 0 (serveWs_register s ws).1
    (r.1,
      (serveWs_register s ws).2 ++ r.2.1 ++ (if r.2.2 then [GwEffect.close ws] else []),
      r.2.2)

/-- The loop `for client := range s.clients` of `listenForBrokerMessages`, over the keys still
to visit and the map as it is now; a key deleted before it is reached is not visited. -/
def forwardLoop (WriteMessage : Conn → Nat → Bytes → Option Error) (data : Bytes) :
    List Conn → GoMap Conn → GoMap Conn × List GwEffect
  | [], m => (m, [])
  | client :: rest, m =>
    if m.contains client then
      match WriteMessage client TextMessage data with
      | some err =>
        ((forwardLoop WriteMessage data rest (m.delete client)).1,
          GwEffect.write client TextMessage data (some err) :: GwEffect.close client
            :: (forwardLoop WriteMessage data rest (m.delete client)).2)
      | none =>
        ((forwardLoop WriteMessage data rest m).1,
          GwEffect.write client TextMessage data none :: (forwardLoop WriteMessage data rest m).2)
    else forwardLoop WriteMessage data rest m

/-- Lines 90-98 of `listenForBrokerMessages`: one received message is written to every client. -/
def listenForBrokerMessages_forward (s : server) (msg : ChatMessage)
    (WriteMessage : Conn → Nat → Bytes → Option Error) : server × List GwEffect :=
  ({ clients := (forwardLoop WriteMessage msg.Body s.clients.keys s.clients).1 },
    (forwardLoop WriteMessage msg.Body s.clients.keys s.clients).2)

/-- What `stream.Recv()` returned; a message comes with the outcomes of the writes it causes. -/
inductive RecvResult where
  | msg (m : ChatMessage) (WriteMessage : Conn → Nat → Bytes → Option Error)
  | fail (err : Error)

/-- How a run of the listener ended: in `log.Fatalf`, or waiting in `stream.Recv()`. -/
inductive ListenStatus where
  | fatal
  | waiting
deriving DecidableEq, Repr

/-- Lines 75-78 of `listenForBrokerMessages`: the effects of opening the stream. -/
def openEffects : Option Error → List GwEffect
  | some err =>
    [GwEffect.subscribe (some err),
      GwEffect.fatal ("could not open stream to receive messages: " ++ err)]
  | none => [GwEffect.subscribe none]

/-- Lines 82-86 of `listenForBrokerMessages`: the effects of a failed receive. -/
def recvFailEffects (err : Error) : List GwEffect :=
  [GwEffect.recvFailed err, GwEffect.log ("error receiving message from broker: " ++ err),
    GwEffect.sleep (2 * Second), GwEffect.spawn]

/-- The `for` loop of `listenForBrokerMessages` over the results of the successive `Recv`
calls.  `go s.listenForBrokerMessages()` followed by `return` is the run of the new goroutine;
`k` is the number of `ReceiveMessages` calls made so far. -/
def listenLoop (ReceiveMessages : Nat → Option Error) :
    List RecvResult → Nat → server → server × List GwEffect × ListenStatus
  | [], _, s => (s, [], ListenStatus.waiting)
  | RecvResult.msg m WriteMessage :: rest, k, s =>
    let f := listenForBrokerMessages_forward s m WriteMessage
    ((listenLoop ReceiveMessages rest k f.1).1,
      f.2 ++ (listenLoop ReceiveMessages rest k f.1).2.1,
      (listenLoop ReceiveMessages rest k f.1).2.2)
  | RecvResult.fail err :: rest, k, s =>
    match ReceiveMessages k with
    | some e => (s, recvFailEffects err ++ openEffects (some e), ListenStatus.fatal)
    | none =>
      ((listenLoop ReceiveMessages rest (k + 1) s).1,
        recvFailEffects err ++ openEffects none ++ (listenLoop ReceiveMessages rest (k + 1) s).2.1,
        (listenLoop ReceiveMessages rest (k + 1) s).2.2)

/-- The function `server.listenForBrokerMessages`, as started by `main`. -/
def listenForBrokerMessages (ReceiveMessages : Nat → Option Error) (recvs : List RecvResult)
    (s : server) : server × List GwEffect × ListenStatus :=
  match ReceiveMessages 0 with
  | some e => (s, openEffects (some e), ListenStatus.fatal)
  | none =>
    ((listenLoop ReceiveMessages recvs 1 s).1,
      openEffects none ++ (listenLoop ReceiveMessages recvs 1 s).2.1,
      (listenLoop ReceiveMessages recvs 1 s).2.2)

/-- The publish calls among a list of gateway effects, in order. -/
def publishCalls : List GwEffect → List (ChatMessage × Option Error)
  | [] => []
  | GwEffect.publish msg err :: rest => (msg, err) :: publishCalls rest
  | _ :: rest => publishCalls rest

/-- The write attempts among a list of gateway effects, in order. -/
def writeAttempts : List GwEffect → List (Conn × Nat × Bytes × Option Error)
  | [] => []
  | GwEffect.write client t data err :: rest => (client, t, data, err) :: writeAttempts rest
  | _ :: rest => writeAttempts rest

/-- The connections closed by a list of gateway effects, in order. -/
def closedConns : List GwEffect → List Conn
  | [] => []
  | GwEffect.close client :: rest => client :: closedConns rest
  | _ :: rest => closedConns rest

/-- The steps of the reconnect cycle of `listenForBrokerMessages`: a `ReceiveMessages` call,
a failed `Recv`, a `time.Sleep`, a `go` statement. -/
inductive ReconnectEvent where
  | subscribed
  | failed
  | slept (ns : Nat)
  | spawned
deriving DecidableEq, Repr

/-- The step of the reconnect cycle that an effect is, if any. -/
def reconnectEvent : GwEffect → Option ReconnectEvent
  | GwEffect.subscribe _ => some ReconnectEvent.subscribed
  | GwEffect.recvFailed _ => some ReconnectEvent.failed
  | GwEffect.sleep ns => some (ReconnectEvent.slept ns)
  | GwEffect.spawn => some ReconnectEvent.spawned
  | _ => none

/-- The steps of the reconnect cycle among a list of gateway effects, in order. -/
def reconnectView (effs : List GwEffect) : List ReconnectEvent :=
  effs.filterMap reconnectEvent

/-- One round of the reconnect cycle: open the stream, fail to receive, sleep two seconds,
start the replacement. -/
def reconnectCycle : List ReconnectEvent :=
  [ReconnectEvent.subscribed, ReconnectEvent.failed, ReconnectEvent.slept (2 * Second),
    ReconnectEvent.spawned]

/-- The number of `ReceiveMessages` calls in a list of gateway effects. -/
def subscribeCount (effs : List GwEffect) : Nat :=
  (reconnectView effs).count ReconnectEvent.subscribed

/-- The number of failed `Recv` calls in a list of gateway effects. -/
def recvFailCount (effs : List GwEffect) : Nat :=
  (reconnectView effs).count ReconnectEvent.failed

/-- Whether a list of gateway effects reaches `log.Fatalf`. -/
def reachesFatal : List GwEffect → Bool
  | [] => false
  | GwEffect.fatal _ :: _ => true
  | _ :: rest => reachesFatal rest

/-- The failed `Recv` results in a list of results. -/
def failedRecvs : List RecvResult → Nat
  | [] => 0
  | RecvResult.fail _ :: rest => failedRecvs rest + 1
  | RecvResult.msg _ _ :: rest => failedRecvs rest

/-! ### The gateway as a step relation -/

/-- Where a goroutine running `listenForBrokerMessages` stands: before `ReceiveMessages`
(line 75), in `stream.Recv()` (line 81), in `time.Sleep` (line 84), before the `go` statement
(line 86), before `return` (line 87), or returned. -/
inductive ListenerPc where
  | entry
  | recv
  | sleeping
  | spawning
  | returning
  | done
deriving DecidableEq, Repr

/-- The gateway process: the `server`, the listener goroutines in order of creation, the
effects so far, and whether `log.Fatalf` has ended the process. -/
structure Gateway where
  srv : server
  listeners : List ListenerPc
  trace : List GwEffect
  exited : Bool

/-- The gateway after `main` has run `go s.listenForBrokerMessages()`. -/
def Gateway.start : Gateway :=
  { srv := newServer, listeners := [ListenerPc.entry], trace := [], exited := false }

/-- One step of the gateway.  The first three are steps of a `serveWs` goroutine, the others
of listener goroutine number `i`. -/
inductive GwStep where
  | connect (ws : Conn)
  | frame (ws : Conn) (msg : Bytes) (pubErr : Option Error)
  | readFail (ws : Conn) (err : Error)
  | openStream (i : Nat) (err : Option Error)
  | recvMsg (i : Nat) (msg : ChatMessage) (WriteMessage : Conn → Nat → Bytes → Option Error)
  | recvFail (i : Nat) (err : Error)
  | wake (i : Nat)
  | spawn (i : Nat)
  | ret (i : Nat)

/-- Listener `i` moves from `pc` to `pc2`, with the given effects. -/
def Gateway.advance (g : Gateway) (i : Nat) (pc pc2 : ListenerPc) (effs : List GwEffect) :
    Option Gateway :=
  if g.listeners.get? i = some pc then
    some { g with listeners := g.listeners.set i pc2, trace := g.trace ++ effs }
  else none

/-- The gateway after one step, `none` when the step cannot be taken in this state. -/
def gwStep (g : Gateway) (st : GwStep) : Option Gateway :=
  if g.exited then none else
  match st with
  | GwStep.connect ws =>
    some { g with srv := (serveWs_register g.srv ws).1
                  trace := g.trace ++ (serveWs_register g.srv ws).2 }
  | GwStep.frame _ msg pubErr =>
    some { g with trace := g.trace ++ serveWs_frame (fun _ => pubErr) msg }
  | GwStep.readFail ws err =>
    some { g with srv := (serveWs_readFail g.srv ws err).1
                  trace := g.trace ++ (serveWs_readFail g.srv ws err).2 ++ [GwEffect.close ws] }
  | GwStep.openStream i none =>
    g.advance i ListenerPc.entry ListenerPc.recv (openEffects none)
  | GwStep.openStream i (some e) =>
    (g.advance i ListenerPc.entry ListenerPc.entry (openEffects (some e))).map
      (fun g2 => { g2 with exited := true })
  | GwStep.recvMsg i msg WriteMessage =>
    (g.advance i ListenerPc.recv ListenerPc.recv
        (listenForBrokerMessages_forward g.srv msg WriteMessage).2).map
      (fun g2 => { g2 with srv := (listenForBrokerMessages_forward g.srv msg WriteMessage).1 })
  | GwStep.recvFail i err =>
    g.advance i ListenerPc.recv ListenerPc.sleeping
      [GwEffect.recvFailed err, GwEffect.log ("error receiving message from broker: " ++ err)]
  | GwStep.wake i =>
    g.advance i ListenerPc.sleeping ListenerPc.spawning [GwEffect.sleep (2 * Second)]
  | GwStep.spawn i =>
    (g.advance i ListenerPc.spawning ListenerPc.returning [GwEffect.spawn]).map
      (fun g2 => { g2 with listeners := g2.listeners ++ [ListenerPc.entry] })
  | GwStep.ret i =>
    g.advance i ListenerPc.returning ListenerPc.done []

/-- The gateway after a sequence of steps. -/
def gwRun (g : Gateway) : List GwStep → Option Gateway
  | [] => some g
  | st :: rest => (gwStep g st).bind (fun g2 => gwRun g2 rest)

/-- The number of listener goroutines that are in `stream.Recv()`. -/
def Gateway.reading (g : Gateway) : Nat :=
  (g.listeners.filter (fun pc => decide (pc = ListenerPc.recv))).length

/-- The number of listener goroutines that have not passed their `go` statement. -/
def Gateway.live (g : Gateway) : Nat :=
  (g.listeners.filter
    (fun pc => decide (pc ≠ ListenerPc.returning) && decide (pc ≠ ListenerPc.done))).length

/-- The number of listener goroutines whose next `ReceiveMessages` call is still to come: in
`time.Sleep`, before `go`, or before `ReceiveMessages`; none once the process has exited. -/
def Gateway.pending (g : Gateway) : Nat :=
  if g.exited then 0 else
  (g.listeners.filter (fun pc => decide (pc = ListenerPc.entry) || decide (pc = ListenerPc.sleeping)
    || decide (pc = ListenerPc.spawning))).length

/-- The reconnect steps of the round in progress when the live listener stands at `pc`;
the flag says whether `log.Fatalf` has ended the process there. -/
def reconnectPartial : ListenerPc → Bool → List ReconnectEvent
  | ListenerPc.entry, false => []
  | ListenerPc.entry, true => [ReconnectEvent.subscribed]
  | ListenerPc.recv, _ => [ReconnectEvent.subscribed]
  | ListenerPc.sleeping, _ => [ReconnectEvent.subscribed, ReconnectEvent.failed]
  | ListenerPc.spawning, _ =>
    [ReconnectEvent.subscribed, ReconnectEvent.failed, ReconnectEvent.slept (2 * Second)]
  | _, _ => []

/-- The invariant of the listener goroutines: every listener but the newest has passed its
`go` statement, the newest has not, and the reconnect steps so far are whole rounds followed
by the round in progress. -/
def Gateway.Inv (g : Gateway) : Prop :=
  ∃ (olds : List ListenerPc) (pc : ListenerPc) (k : Nat),
    g.listeners = olds ++ [pc] ∧
    (∀ p ∈ olds, p = ListenerPc.returning ∨ p = ListenerPc.done) ∧
    pc ≠ ListenerPc.returning ∧ pc ≠ ListenerPc.done ∧
    (g.exited = true → pc = ListenerPc.entry) ∧
    reconnectView g.trace
      = (List.replicate k reconnectCycle).flatten ++ reconnectPartial pc g.exited

/-! ### Broker and gateways together -/

/-- One frame read by `serveWs` from the endpoint `ws` of the gateway reading stream `a`,
through the broker, to the gateways reading the registered streams: the gateway-side effects
of the forwarding, each with the stream it came in on.  The publish call is the broker's
`BroadcastMessage`; a send that returns `nil` is the next result of `Recv` on that stream. -/
def relayFrame (b : brokerServer) (gateways : Stream → server) (a : Stream) (ws : Conn)
    (Send : Stream → ChatMessage → Option Error)
    (WriteMessage : Stream → Conn → Nat → Bytes → Option Error) (frame : Bytes) :
    List (Stream × GwEffect) :=
  (publishCalls (serveWsLoop ws (fun _ msg => (BroadcastMessage b msg Send).err)
      [ReadResult.frame frame] 0 (gateways a)).2.1).flatMap
    (fun p =>
      (sendAttempts (BroadcastMessage b p.1 Send).effects).flatMap
        (fun att =>
          match att.2.2 with
          | some _ => []
          | none =>
            (listenForBrokerMessages_forward (gateways att.1) att.2.1 (WriteMessage att.1)).2.map
              (fun e => (att.1, e))))

/-! ## Lemmas on the broker -/

theorem sendAttempts_append (xs ys : List BrokerEffect) :
    sendAttempts (xs ++ ys) = sendAttempts xs ++ sendAttempts ys := by
  induction xs with
  | nil => rfl
  | cons x rest ih => cases x <;> simp [sendAttempts, ih]

theorem sendAttempts_broadcastLoop (Send : Stream → ChatMessage → Option Error)
    (msg : ChatMessage) (subs : List Stream) :
    sendAttempts (broadcastLoop Send msg subs) = subs.map (fun sub => (sub, msg, Send sub msg)) := by
  induction subs with
  | nil => rfl
  | cons sub rest ih =>
    cases h : Send sub msg with
    | none => simp [broadcastLoop, h, sendAttempts, ih]
    | some e => simp [broadcastLoop, h, sendAttempts, ih]

theorem sendTargets_broadcastLoop (Send : Stream → ChatMessage → Option Error)
    (msg : ChatMessage) (subs : List Stream) :
    sendTargets (broadcastLoop Send msg subs) = subs := by
  simp [sendTargets, sendAttempts_broadcastLoop, Function.comp_def]

theorem copiesReceived_broadcastLoop_not_mem (Send : Stream → ChatMessage → Option Error)
    (msg : ChatMessage) (sub : Stream) (subs : List Stream) (h : sub ∉ subs) :
    copiesReceived (broadcastLoop Send msg subs) sub = [] := by
  simp only [copiesReceived, sendAttempts_broadcastLoop]
  induction subs with
  | nil => rfl
  | cons x rest ih =>
    have hx : ¬ x = sub := fun e => h (by simp [e])
    have hr : sub ∉ rest := fun e => h (by simp [e])
    simpa [List.filter_cons, hx] using ih hr

theorem copiesReceived_broadcastLoop_mem (Send : Stream → ChatMessage → Option Error)
    (msg : ChatMessage) (sub : Stream) (subs : List Stream) (hn : subs.Nodup) (h : sub ∈ subs)
    (hs : Send sub msg = none) :
    copiesReceived (broadcastLoop Send msg subs) sub = [msg] := by
  induction subs with
  | nil => simp at h
  | cons x rest ih =>
    have hnd := List.nodup_cons.mp hn
    by_cases hx : x = sub
    · subst hx
      have := copiesReceived_broadcastLoop_not_mem Send msg x rest hnd.1
      simp only [copiesReceived, sendAttempts_broadcastLoop] at this ⊢
      simp [List.filter_cons, hs, this]
    · have hr : sub ∈ rest := by
        rcases List.mem_cons.mp h with e | e
        · exact absurd e.symm hx
        · exact e
      have := ih hnd.2 hr
      simp only [copiesReceived, sendAttempts_broadcastLoop] at this ⊢
      simpa [List.filter_cons, hx] using this

theorem GoMap.mem_insert {K : Type} [DecidableEq K] (m : GoMap K) (k x : K) :
    x ∈ (m.insert k).keys ↔ x = k ∨ x ∈ m.keys := by
  unfold GoMap.insert
  split
  · constructor
    · exact Or.inr
    · rintro (e | e)
      · subst e; assumption
      · exact e
  · simp

theorem GoMap.mem_delete {K : Type} [DecidableEq K] (m : GoMap K) (k x : K) :
    x ∈ (m.delete k).keys ↔ x ≠ k ∧ x ∈ m.keys := by
  simp [GoMap.delete, m.nodup.mem_erase_iff]

theorem brokerStep_mem (s : brokerServer) (st : BrokerStep) (h : Stream)
    (hne : ∀ st2 ∈ [st], st2 ≠ BrokerStep.subscribe h) (hs : h ∉ s.subscribers.keys) :
    h ∉ (brokerStep s st).1.subscribers.keys ∧ h ∉ sendTargets (brokerStep s st).2 := by
  cases st with
  | subscribe x =>
    have hx : h ≠ x := fun e => hne (BrokerStep.subscribe x) (by simp) (by rw [e])
    simp [brokerStep, ReceiveMessages_register, GoMap.mem_insert, hx, hs, sendTargets, sendAttempts]
  | cancelled x =>
    simp [brokerStep, ReceiveMessages_cleanup, GoMap.mem_delete, hs, sendTargets, sendAttempts]
  | publish msg Send =>
    simp [brokerStep, BroadcastMessage, sendTargets_broadcastLoop, hs]

theorem sendTargets_append (xs ys : List BrokerEffect) :
    sendTargets (xs ++ ys) = sendTargets xs ++ sendTargets ys := by
  simp [sendTargets, sendAttempts_append]

theorem brokerRun_not_mem (steps : List BrokerStep) (s : brokerServer) (h : Stream)
    (hne : ∀ st ∈ steps, st ≠ BrokerStep.subscribe h) (hs : h ∉ s.subscribers.keys) :
    h ∉ (brokerRun s steps).1.subscribers.keys ∧ h ∉ sendTargets (brokerRun s steps).2 := by
  induction steps generalizing s with
  | nil => simp [brokerRun, hs, sendTargets, sendAttempts]
  | cons st rest ih =>
    have h1 := brokerStep_mem s st h (fun st2 h2 => hne st2 (by simp_all)) hs
    have h2 := ih (brokerStep s st).1 (fun st2 h2 => hne st2 (by simp [h2])) h1.1
    simp only [brokerRun, sendTargets_append, List.mem_append, not_or]
    exact ⟨h2.1, h1.2, h2.2⟩

/-! ## The broker: fan-out, acknowledgment, registry -/

/-- C1: `BroadcastMessage` attempts `Send` once on every registered handle, in the order of
the range loop, each time with the message it was given and whatever the outcomes of the
sends are; it sends on no handle outside the registry; and a registered handle whose send
returns `nil` receives exactly one copy of the message. -/
theorem BroadcastMessage_fanout (s : brokerServer) (msg : ChatMessage)
    (Send : Stream → ChatMessage → Option Error) :
    sendAttempts (BroadcastMessage s msg Send).effects
        = s.subscribers.keys.map (fun sub => (sub, msg, Send sub msg)) ∧
      (∀ sub, sub ∈ s.subscribers.keys →
        (sendTargets (BroadcastMessage s msg Send).effects).count sub = 1) ∧
      (∀ sub, sub ∉ s.subscribers.keys →
        (sendTargets (BroadcastMessage s msg Send).effects).count sub = 0) ∧
      (∀ sub, sub ∈ s.subscribers.keys → Send sub msg = none →
        copiesReceived (BroadcastMessage s msg Send).effects sub = [msg]) := by
  refine ⟨sendAttempts_broadcastLoop Send msg _, ?_, ?_, ?_⟩
  · intro sub h
    simp only [BroadcastMessage, sendTargets_broadcastLoop]
    exact List.count_eq_one_of_mem s.subscribers.nodup h
  · intro sub h
    simp only [BroadcastMessage, sendTargets_broadcastLoop]
    exact List.count_eq_zero_of_not_mem h
  · intro sub h hs
    exact copiesReceived_broadcastLoop_mem Send msg sub _ s.subscribers.nodup h hs

/-- C1, at a concrete registry: streams 1 and 2 are registered and the send on 2 fails; both
are sent to once, and stream 1 receives its one copy. -/
theorem BroadcastMessage_fanout_witness :
    sendTargets (BroadcastMessage
        (ReceiveMessages_register (ReceiveMessages_register newBrokerServer 1).1 2).1
        { Body := [120] } (fun sub _ => if sub = 2 then some "closed" else none)).effects
        = [2, 1] ∧
      copiesReceived (BroadcastMessage
        (ReceiveMessages_register (ReceiveMessages_register newBrokerServer 1).1 2).1
        { Body := [120] } (fun sub _ => if sub = 2 then some "closed" else none)).effects 1
        = [{ Body := [120] }] :=
  ⟨rfl, (BroadcastMessage_fanout _ _ _).2.2.2 1 (by decide) rfl⟩

/-- C3: `BroadcastMessage` returns a non-nil `Empty` and a nil error for every registry,
message (the empty payload included) and outcome of the sends; on a registry without
subscribers it makes no send and has no other effect. -/
theorem BroadcastMessage_always_succeeds (s : brokerServer) (msg : ChatMessage)
    (Send : Stream → ChatMessage → Option Error) :
    (BroadcastMessage s msg Send).resp = some {} ∧
      (BroadcastMessage s msg Send).err = none ∧
      (BroadcastMessage s { Body := [] } Send).resp = some {} ∧
      (BroadcastMessage s { Body := [] } Send).err = none ∧
      (BroadcastMessage newBrokerServer msg Send).resp = some {} ∧
      (BroadcastMessage newBrokerServer msg Send).err = none ∧
      (BroadcastMessage newBrokerServer msg Send).effects = [] ∧
      (s.subscribers.keys = [] → (BroadcastMessage s msg Send).effects = []) := by
  refine ⟨rfl, rfl, rfl, rfl, rfl, rfl, rfl, fun h => ?_⟩
  simp [BroadcastMessage, h, broadcastLoop]

/-- C2: `ReceiveMessages` first makes the registry the old one plus its stream.  Whatever the
registry `s2` is when the stream's context is cancelled, the rest of the call returns `nil`
and leaves a registry without the stream in which every other handle is present exactly when
it was in `s2`; a `BroadcastMessage` on that registry does not send on the stream, and neither
does any later sequence of broker steps in which the stream is not registered again. -/
theorem ReceiveMessages_registers_then_removes (s : brokerServer) (stream : Stream) :
    (∀ h, h ∈ (ReceiveMessages_register s stream).1.subscribers.keys
        ↔ h = stream ∨ h ∈ s.subscribers.keys) ∧
      (∀ s2 : brokerServer,
        stream ∉ (ReceiveMessages_cleanup s2 stream).1.subscribers.keys ∧
        (∀ h, h ≠ stream →
          (h ∈ (ReceiveMessages_cleanup s2 stream).1.subscribers.keys ↔ h ∈ s2.subscribers.keys)) ∧
        (ReceiveMessages_cleanup s2 stream).2.2 = none ∧
        (∀ msg Send,
          stream ∉ sendTargets (BroadcastMessage (ReceiveMessages_cleanup s2 stream).1 msg Send).effects) ∧
        (∀ later : List BrokerStep, (∀ st ∈ later, st ≠ BrokerStep.subscribe stream) →
          stream ∉ sendTargets (brokerRun (ReceiveMessages_cleanup s2 stream).1 later).2)) := by
  refine ⟨fun h => GoMap.mem_insert _ _ _, fun s2 => ?_⟩
  have hout : stream ∉ (ReceiveMessages_cleanup s2 stream).1.subscribers.keys := by
    simp [ReceiveMessages_cleanup, GoMap.mem_delete]
  refine ⟨hout, ?_, rfl, ?_, ?_⟩
  · intro h hne
    simp [ReceiveMessages_cleanup, GoMap.mem_delete, hne]
  · intro msg Send
    simpa only [BroadcastMessage, sendTargets_broadcastLoop] using hout
  · intro later hl
    exact (brokerRun_not_mem later _ stream hl hout).2

/-- C2, at a concrete run: stream 7 subscribes to a registry holding 3, is cancelled, and two
broadcasts and a new subscriber later no send has gone to 7. -/
theorem ReceiveMessages_registers_then_removes_witness :
    (∀ st ∈ [BrokerStep.publish { Body := [104, 105] } (fun _ _ => none), BrokerStep.subscribe 9,
        BrokerStep.publish { Body := [] } (fun _ _ => some "closed")],
        st ≠ BrokerStep.subscribe 7) ∧
      7 ∉ sendTargets (brokerRun
        (ReceiveMessages_cleanup
          (ReceiveMessages_register (ReceiveMessages_register newBrokerServer 3).1 7).1 7).1
        [BrokerStep.publish { Body := [104, 105] } (fun _ _ => none), BrokerStep.subscribe 9,
          BrokerStep.publish { Body := [] } (fun _ _ => some "closed")]).2 :=
  ⟨by simp,
    (ReceiveMessages_registers_then_removes newBrokerServer 7).2
      (ReceiveMessages_register (ReceiveMessages_register newBrokerServer 3).1 7).1 |>.2.2.2.2
      _ (by simp)⟩

/-- C10: `BroadcastMessage` leaves the `brokerServer` as it found it, whatever the sends
return.  A registered handle whose send failed is therefore still registered and the next
`BroadcastMessage` sends on it once more; the only broker step that takes a handle out of the
registry is the cleanup of that handle's own `ReceiveMessages` call, and that step does. -/
theorem BroadcastMessage_keeps_registry (s : brokerServer) (msg : ChatMessage)
    (Send : Stream → ChatMessage → Option Error) :
    (BroadcastMessage s msg Send).server = s ∧
      (∀ h, h ∈ s.subscribers.keys → Send h msg ≠ none →
        h ∈ (BroadcastMessage s msg Send).server.subscribers.keys ∧
        ∀ msg2 Send2,
          (sendTargets
            (BroadcastMessage (BroadcastMessage s msg Send).server msg2 Send2).effects).count h = 1) ∧
      (∀ h st, h ∈ s.subscribers.keys → h ∉ (brokerStep s st).1.subscribers.keys →
        st = BrokerStep.cancelled h) ∧
      (∀ h, h ∉ (brokerStep s (BrokerStep.cancelled h)).1.subscribers.keys) := by
  refine ⟨rfl, ?_, ?_, ?_⟩
  · intro h hm _
    refine ⟨hm, fun msg2 Send2 => ?_⟩
    simp only [BroadcastMessage, sendTargets_broadcastLoop]
    exact List.count_eq_one_of_mem s.subscribers.nodup hm
  · intro h st hm hout
    cases st with
    | subscribe x =>
      exact absurd ((GoMap.mem_insert _ _ _).mpr (Or.inr hm)) hout
    | cancelled x =>
      by_cases e : h = x
      · rw [e]
      · exact absurd ((GoMap.mem_delete _ _ _).mpr ⟨e, hm⟩) hout
    | publish m S => exact absurd hm hout
  · intro h
    simp [brokerStep, ReceiveMessages_cleanup, GoMap.mem_delete]

/-- C10, at a concrete registry: the send on stream 2 fails, stream 2 is still registered
afterwards and the next broadcast sends on it once. -/
theorem BroadcastMessage_keeps_registry_witness :
    2 ∈ (BroadcastMessage
        (ReceiveMessages_register (ReceiveMessages_register newBrokerServer 1).1 2).1
        { Body := [120] } (fun sub _ => if sub = 2 then some "closed" else none)).server.subscribers.keys ∧
      (sendTargets (BroadcastMessage (BroadcastMessage
        (ReceiveMessages_register (ReceiveMessages_register newBrokerServer 1).1 2).1
        { Body := [120] } (fun sub _ => if sub = 2 then some "closed" else none)).server
        { Body := [121] } (fun _ _ => none)).effects).count 2 = 1 :=
  ⟨((BroadcastMessage_keeps_registry _ { Body := [120] }
      (fun sub _ => if sub = 2 then some "closed" else none)).2.1 2 (by decide) (by decide)).1,
    ((BroadcastMessage_keeps_registry _ { Body := [120] }
      (fun sub _ => if sub = 2 then some "closed" else none)).2.1 2 (by decide) (by decide)).2
      { Body := [121] } (fun _ _ => none)⟩

/-! ## Lemmas on the gateway -/

theorem publishCalls_append (xs ys : List GwEffect) :
    publishCalls (xs ++ ys) = publishCalls xs ++ publishCalls ys := by
  induction xs with
  | nil => rfl
  | cons x rest ih => cases x <;> simp [publishCalls, ih]

theorem publishCalls_serveWs_frame (B : ChatMessage → Option Error) (msg : Bytes) :
    publishCalls (serveWs_frame B msg) = [({ Body := msg }, B { Body := msg })] := by
  unfold serveWs_frame
  cases h : B { Body := msg } <;> simp [publishCalls]

theorem serveWsLoop_frames (ws : Conn) (B : Nat → ChatMessage → Option Error)
    (frames : List Bytes) (err : Error) (later : List ReadResult) (n : Nat) (s : server) :
    (serveWsLoop ws B (frames.map ReadResult.frame ++ ReadResult.fail err :: later) n s).1
        = (serveWs_readFail s ws err).1 ∧
      publishCalls
          (serveWsLoop ws B (frames.map ReadResult.frame ++ ReadResult.fail err :: later) n s).2.1
        = (frames.enumFrom n).map (fun p => ({ Body := p.2 }, B p.1 { Body := p.2 })) ∧
      (serveWsLoop ws B (frames.map ReadResult.frame ++ ReadResult.fail err :: later) n s).2.2
        = true := by
  induction frames generalizing n with
  | nil => simp [serveWsLoop, serveWs_readFail, publishCalls]
  | cons f rest ih =>
    obtain ⟨h1, h2, h3⟩ := ih (n + 1)
    refine ⟨?_, ?_, ?_⟩
    · simpa [serveWsLoop] using h1
    · have e : publishCalls (serveWsLoop ws B
          (ReadResult.frame f :: (rest.map ReadResult.frame ++ ReadResult.fail err :: later)) n s).2.1
          = ({ Body := f }, B n { Body := f })
            :: publishCalls (serveWsLoop ws B
              (rest.map ReadResult.frame ++ ReadResult.fail err :: later) (n + 1) s).2.1 := by
        simp [serveWsLoop, publishCalls_append, publishCalls_serveWs_frame]
      simpa [List.enumFrom_cons, h2] using e
    · simpa [serveWsLoop] using h3

theorem forwardLoop_spec (W : Conn → Nat → Bytes → Option Error) (data : Bytes)
    (l : List Conn) (m : GoMap Conn) (hl : l.Nodup) (hsub : ∀ c ∈ l, c ∈ m.keys) :
    writeAttempts (forwardLoop W data l m).2
        = l.map (fun c => (c, TextMessage, data, W c TextMessage data)) ∧
      closedConns (forwardLoop W data l m).2
        = l.filter (fun c => (W c TextMessage data).isSome) ∧
      ∀ c, c ∈ (forwardLoop W data l m).1.keys
        ↔ c ∈ m.keys ∧ ¬ (c ∈ l ∧ (W c TextMessage data).isSome) := by
  induction l generalizing m with
  | nil => simp [forwardLoop, writeAttempts, closedConns]
  | cons x rest ih =>
    have hnd := List.nodup_cons.mp hl
    have hx : m.contains x = true := by simp [GoMap.contains, hsub x (by simp)]
    cases hw : W x TextMessage data with
    | none =>
      obtain ⟨h1, h2, h3⟩ := ih m hnd.2 (fun c hc => hsub c (by simp [hc]))
      simp only [forwardLoop, hx, hw, if_true]
      refine ⟨by simp [writeAttempts, h1, hw], by simp [closedConns, h2, List.filter_cons, hw], ?_⟩
      intro c
      rw [h3 c]
      constructor
      · rintro ⟨hm, hn⟩
        refine ⟨hm, ?_⟩
        rintro ⟨hc, hs⟩
        rcases List.mem_cons.mp hc with e | e
        · subst e; simp [hw] at hs
        · exact hn ⟨e, hs⟩
      · rintro ⟨hm, hn⟩
        exact ⟨hm, fun ⟨hc, hs⟩ => hn ⟨by simp [hc], hs⟩⟩
    | some e =>
      have hsub2 : ∀ c ∈ rest, c ∈ (m.delete x).keys := by
        intro c hc
        refine (GoMap.mem_delete m x c).mpr ⟨?_, hsub c (by simp [hc])⟩
        rintro rfl
        exact hnd.1 hc
      obtain ⟨h1, h2, h3⟩ := ih (m.delete x) hnd.2 hsub2
      simp only [forwardLoop, hx, hw, if_true]
      refine ⟨by simp [writeAttempts, h1, hw], by simp [closedConns, h2, List.filter_cons, hw], ?_⟩
      intro c
      rw [h3 c, GoMap.mem_delete]
      constructor
      · rintro ⟨⟨hne, hm⟩, hn⟩
        refine ⟨hm, ?_⟩
        rintro ⟨hc, hs⟩
        rcases List.mem_cons.mp hc with e2 | e2
        · exact hne e2
        · exact hn ⟨e2, hs⟩
      · rintro ⟨hm, hn⟩
        refine ⟨⟨?_, hm⟩, fun ⟨hc, hs⟩ => hn ⟨by simp [hc], hs⟩⟩
        rintro rfl
        exact hn ⟨by simp, by simp [hw]⟩

theorem forward_spec (s : server) (msg : ChatMessage) (W : Conn → Nat → Bytes → Option Error) :
    writeAttempts (listenForBrokerMessages_forward s msg W).2
        = s.clients.keys.map (fun c => (c, TextMessage, msg.Body, W c TextMessage msg.Body)) ∧
      closedConns (listenForBrokerMessages_forward s msg W).2
        = s.clients.keys.filter (fun c => (W c TextMessage msg.Body).isSome) ∧
      ∀ c, c ∈ (listenForBrokerMessages_forward s msg W).1.clients.keys
        ↔ c ∈ s.clients.keys ∧ W c TextMessage msg.Body = none := by
  obtain ⟨h1, h2, h3⟩ :=
    forwardLoop_spec W msg.Body s.clients.keys s.clients s.clients.nodup (fun _ h => h)
  refine ⟨h1, h2, fun c => ?_⟩
  simp only [listenForBrokerMessages_forward]
  rw [h3 c]
  constructor
  · rintro ⟨hm, hn⟩
    refine ⟨hm, ?_⟩
    cases hw : W c TextMessage msg.Body with
    | none => rfl
    | some e => exact absurd ⟨hm, by simp [hw]⟩ hn
  · rintro ⟨hm, hw⟩
    exact ⟨hm, fun ⟨_, hs⟩ => by simp [hw] at hs⟩

/-! ## The gateway: forwarding in both directions -/

/-- C4: one forward step writes the message body once to every endpoint of the set, as a text
frame and in the order of the range loop, whatever the outcomes of the writes are; the
closed endpoints are exactly those whose write failed; and the set afterwards holds exactly
the endpoints of the set before whose write returned `nil`. -/
theorem forward_writes_every_endpoint (s : server) (msg : ChatMessage)
    (WriteMessage : Conn → Nat → Bytes → Option Error) :
    writeAttempts (listenForBrokerMessages_forward s msg WriteMessage).2
        = s.clients.keys.map
            (fun c => (c, TextMessage, msg.Body, WriteMessage c TextMessage msg.Body)) ∧
      (∀ c, c ∈ s.clients.keys →
        ((writeAttempts (listenForBrokerMessages_forward s msg WriteMessage).2).map
          (fun a => a.1)).count c = 1) ∧
      (∀ c, c ∈ closedConns (listenForBrokerMessages_forward s msg WriteMessage).2
        ↔ c ∈ s.clients.keys ∧ WriteMessage c TextMessage msg.Body ≠ none) ∧
      (∀ c, c ∈ (listenForBrokerMessages_forward s msg WriteMessage).1.clients.keys
        ↔ c ∈ s.clients.keys ∧ WriteMessage c TextMessage msg.Body = none) := by
  obtain ⟨h1, h2, h3⟩ := forward_spec s msg WriteMessage
  refine ⟨h1, ?_, ?_, h3⟩
  · intro c hc
    rw [h1]
    simp only [List.map_map, Function.comp_def, List.map_id']
    exact List.count_eq_one_of_mem s.clients.nodup hc
  · intro c
    rw [h2]
    simp [List.mem_filter, Option.isSome_iff_ne_none]

/-- C4, at a concrete endpoint set: endpoints 1 and 2 are connected and the write to 1 fails;
endpoint 1 is closed and gone, endpoint 2 is still in the set. -/
theorem forward_writes_every_endpoint_witness :
    1 ∈ closedConns (listenForBrokerMessages_forward
        (serveWs_register (serveWs_register newServer 1).1 2).1 { Body := [104, 105] }
        (fun c _ _ => if c = 1 then some "broken pipe" else none)).2 ∧
      1 ∉ (listenForBrokerMessages_forward
        (serveWs_register (serveWs_register newServer 1).1 2).1 { Body := [104, 105] }
        (fun c _ _ => if c = 1 then some "broken pipe" else none)).1.clients.keys ∧
      2 ∈ (listenForBrokerMessages_forward
        (serveWs_register (serveWs_register newServer 1).1 2).1 { Body := [104, 105] }
        (fun c _ _ => if c = 1 then some "broken pipe" else none)).1.clients.keys :=
  ⟨((forward_writes_every_endpoint _ _ _).2.2.1 1).mpr ⟨by decide, by decide⟩,
    fun h => absurd (((forward_writes_every_endpoint _ _ _).2.2.2 1).mp h).2 (by decide),
    ((forward_writes_every_endpoint _ _ _).2.2.2 2).mpr ⟨by decide, rfl⟩⟩

/-- C5: when `ReadMessage` returns the frames `f1..fn` and then fails, `serveWs` issues exactly
`n` `BroadcastMessage` calls, the `i`-th with body `fi`, whatever each call returns and
whatever later reads would have returned; it then returns with the endpoint out of the
clients map, every other endpoint being present exactly when it was before. -/
theorem serveWs_forwards_every_frame (s : server) (ws : Conn)
    (BroadcastMessage : Nat → ChatMessage → Option Error) (frames : List Bytes) (err : Error)
    (later : List ReadResult) :
    publishCalls (serveWs s (Except.ok ws) BroadcastMessage
          (frames.map ReadResult.frame ++ ReadResult.fail err :: later)).2.1
        = frames.enum.map (fun p => ({ Body := p.2 }, BroadcastMessage p.1 { Body := p.2 })) ∧
      (publishCalls (serveWs s (Except.ok ws) BroadcastMessage
          (frames.map ReadResult.frame ++ ReadResult.fail err :: later)).2.1).length
        = frames.length ∧
      (serveWs s (Except.ok ws) BroadcastMessage
          (frames.map ReadResult.frame ++ ReadResult.fail err :: later)).2.2 = true ∧
      ws ∉ (serveWs s (Except.ok ws) BroadcastMessage
          (frames.map ReadResult.frame ++ ReadResult.fail err :: later)).1.clients.keys ∧
      (∀ c, c ≠ ws →
        (c ∈ (serveWs s (Except.ok ws) BroadcastMessage
            (frames.map ReadResult.frame ++ ReadResult.fail err :: later)).1.clients.keys
          ↔ c ∈ s.clients.keys)) := by
  obtain ⟨h1, h2, h3⟩ :=
    serveWsLoop_frames ws BroadcastMessage frames err later 0 (serveWs_register s ws).1
  have hp : publishCalls (serveWs s (Except.ok ws) BroadcastMessage
      (frames.map ReadResult.frame ++ ReadResult.fail err :: later)).2.1
        = frames.enum.map (fun p => ({ Body := p.2 }, BroadcastMessage p.1 { Body := p.2 })) := by
    simp only [serveWs, publishCalls_append, h2, h3, if_true]
    simp [serveWs_register, publishCalls, List.enum]
  refine ⟨hp, by rw [hp]; simp, by simpa [serveWs] using h3, ?_, ?_⟩
  · simp only [serveWs, h1]
    simp [serveWs_readFail, GoMap.mem_delete]
  · intro c hc
    simp only [serveWs, h1]
    simp [serveWs_readFail, serveWs_register, GoMap.mem_delete, GoMap.mem_insert, hc]

/-- C5, at a concrete read sequence: two frames, then a read failure; the first publish
fails, the second is issued all the same, and the frame after the failure is never read. -/
theorem serveWs_forwards_every_frame_witness :
    publishCalls (serveWs newServer (Except.ok 5)
        (fun n _ => if n = 0 then some "unavailable" else none)
        [ReadResult.frame [104], ReadResult.frame [105], ReadResult.fail "EOF",
          ReadResult.frame [106]]).2.1
        = [({ Body := [104] }, some "unavailable"), ({ Body := [105] }, none)] ∧
      5 ∉ (serveWs newServer (Except.ok 5)
        (fun n _ => if n = 0 then some "unavailable" else none)
        [ReadResult.frame [104], ReadResult.frame [105], ReadResult.fail "EOF",
          ReadResult.frame [106]]).1.clients.keys :=
  ⟨(serveWs_forwards_every_frame newServer 5
      (fun n _ => if n = 0 then some "unavailable" else none) [[104], [105]] "EOF"
      [ReadResult.frame [106]]).1,
    (serveWs_forwards_every_frame newServer 5
      (fun n _ => if n = 0 then some "unavailable" else none) [[104], [105]] "EOF"
      [ReadResult.frame [106]]).2.2.2.1⟩

/-! ## Lemmas on the listener -/

theorem reconnectView_append (xs ys : List GwEffect) :
    reconnectView (xs ++ ys) = reconnectView xs ++ reconnectView ys := by
  simp [reconnectView]

theorem reachesFatal_append (xs ys : List GwEffect) :
    reachesFatal (xs ++ ys) = (reachesFatal xs || reachesFatal ys) := by
  induction xs with
  | nil => simp [reachesFatal]
  | cons x rest ih => cases x <;> simp [reachesFatal, ih]

theorem forwardLoop_quiet (W : Conn → Nat → Bytes → Option Error) (data : Bytes)
    (l : List Conn) (m : GoMap Conn) :
    reconnectView (forwardLoop W data l m).2 = [] ∧ reachesFatal (forwardLoop W data l m).2 = false := by
  induction l generalizing m with
  | nil => simp [forwardLoop, reconnectView, reachesFatal]
  | cons x rest ih =>
    unfold forwardLoop
    split
    · split
      · have := ih (m.delete x)
        simpa [reconnectView, reconnectEvent, reachesFatal] using this
      · have := ih m
        simpa [reconnectView, reconnectEvent, reachesFatal] using this
    · exact ih m

theorem forward_quiet (s : server) (msg : ChatMessage) (W : Conn → Nat → Bytes → Option Error) :
    reconnectView (listenForBrokerMessages_forward s msg W).2 = [] ∧
      reachesFatal (listenForBrokerMessages_forward s msg W).2 = false :=
  forwardLoop_quiet W msg.Body s.clients.keys s.clients

theorem reconnectCycle_shift (k : Nat) :
    ReconnectEvent.subscribed :: (List.replicate k
        [ReconnectEvent.failed, ReconnectEvent.slept (2 * Second), ReconnectEvent.spawned,
          ReconnectEvent.subscribed]).flatten
      = (List.replicate k reconnectCycle).flatten ++ [ReconnectEvent.subscribed] := by
  induction k with
  | zero => rfl
  | succ n ih =>
    simp only [List.replicate_succ, List.flatten_cons, reconnectCycle, List.cons_append,
      List.nil_append] at ih ⊢
    rw [ih]

theorem count_subscribed_cycles (k : Nat) :
    (List.replicate k reconnectCycle).flatten.count ReconnectEvent.subscribed = k := by
  induction k with
  | zero => rfl
  | succ n ih =>
    simp only [List.replicate_succ, List.flatten_cons, List.count_append, ih]
    simp [reconnectCycle, List.count_cons]
    omega

theorem count_failed_cycles (k : Nat) :
    (List.replicate k reconnectCycle).flatten.count ReconnectEvent.failed = k := by
  induction k with
  | zero => rfl
  | succ n ih =>
    simp only [List.replicate_succ, List.flatten_cons, List.count_append, ih]
    simp [reconnectCycle, List.count_cons]
    omega

theorem listenLoop_retries (ReceiveMessages : Nat → Option Error)
    (hopen : ∀ k, ReceiveMessages k = none) (recvs : List RecvResult) (k : Nat) (s : server) :
    (listenLoop ReceiveMessages recvs k s).2.2 = ListenStatus.waiting ∧
      reachesFatal (listenLoop ReceiveMessages recvs k s).2.1 = false ∧
      reconnectView (listenLoop ReceiveMessages recvs k s).2.1
        = (List.replicate (failedRecvs recvs)
            [ReconnectEvent.failed, ReconnectEvent.slept (2 * Second), ReconnectEvent.spawned,
              ReconnectEvent.subscribed]).flatten := by
  induction recvs generalizing k s with
  | nil => simp [listenLoop, failedRecvs, reachesFatal, reconnectView]
  | cons r rest ih =>
    cases r with
    | msg m W =>
      obtain ⟨h1, h2, h3⟩ := ih k (listenForBrokerMessages_forward s m W).1
      obtain ⟨q1, q2⟩ := forward_quiet s m W
      simp only [listenLoop, failedRecvs, reachesFatal_append, reconnectView_append, h1, h2, h3,
        q1, q2]
      simp
    | fail err =>
      obtain ⟨h1, h2, h3⟩ := ih (k + 1) s
      simp only [listenLoop, hopen k, failedRecvs, reachesFatal_append, reconnectView_append, h1,
        h2, h3]
      simp [recvFailEffects, openEffects, reachesFatal, reconnectView, reconnectEvent,
        List.replicate_succ]

/-! ## The gateway: the subscription listener -/

/-- C6, as stated, fails: after a first stream was opened, one failed receive followed by a
failed `ReceiveMessages` ends the run in `log.Fatalf`. -/
theorem listenForBrokerMessages_reconnect_reaches_fatal :
    (fun k => if k = 1 then some "unavailable" else none : Nat → Option Error) 0 = none ∧
      (listenForBrokerMessages (fun k => if k = 1 then some "unavailable" else none)
        [RecvResult.fail "EOF"] newServer).2.2 = ListenStatus.fatal ∧
      reachesFatal (listenForBrokerMessages (fun k => if k = 1 then some "unavailable" else none)
        [RecvResult.fail "EOF"] newServer).2.1 = true := by
  refine ⟨rfl, rfl, rfl⟩

/-- C6, amended: when every `ReceiveMessages` call opens its stream, then for every sequence
of `Recv` results the listener never reaches `log.Fatalf`; it ends waiting in `Recv`, and its
reconnect steps are one round of (open, fail, sleep two seconds, start the replacement) for
every failed receive, followed by the open of the stream being read: one more
`ReceiveMessages` call than there were failures, however many there were. -/
theorem listenForBrokerMessages_retries_every_failure (ReceiveMessages : Nat → Option Error)
    (recvs : List RecvResult) (s : server) (hopen : ∀ k, ReceiveMessages k = none) :
    (listenForBrokerMessages ReceiveMessages recvs s).2.2 = ListenStatus.waiting ∧
      reachesFatal (listenForBrokerMessages ReceiveMessages recvs s).2.1 = false ∧
      reconnectView (listenForBrokerMessages ReceiveMessages recvs s).2.1
        = (List.replicate (failedRecvs recvs) reconnectCycle).flatten
            ++ [ReconnectEvent.subscribed] ∧
      subscribeCount (listenForBrokerMessages ReceiveMessages recvs s).2.1
        = failedRecvs recvs + 1 := by
  obtain ⟨h1, h2, h3⟩ := listenLoop_retries ReceiveMessages hopen recvs 1 s
  have hv : reconnectView (listenForBrokerMessages ReceiveMessages recvs s).2.1
      = (List.replicate (failedRecvs recvs) reconnectCycle).flatten
          ++ [ReconnectEvent.subscribed] := by
    rw [← reconnectCycle_shift]
    simp only [listenForBrokerMessages, hopen 0, reconnectView_append, h3]
    simp [openEffects, reconnectView, reconnectEvent]
  refine ⟨?_, ?_, hv, ?_⟩
  · simp only [listenForBrokerMessages, hopen 0, h1]
  · simp only [listenForBrokerMessages, hopen 0, reachesFatal_append, h2]
    simp [openEffects, reachesFatal]
  · simp [subscribeCount, hv, List.count_append, count_subscribed_cycles]

/-- C6, amended, at a concrete run: two failed receives around one message give three
`ReceiveMessages` calls and no `log.Fatalf`. -/
theorem listenForBrokerMessages_retries_every_failure_witness :
    (∀ k : Nat, (fun _ => none : Nat → Option Error) k = none) ∧
      reachesFatal (listenForBrokerMessages (fun _ => none)
        [RecvResult.fail "EOF", RecvResult.msg { Body := [104, 105] } (fun _ _ _ => none),
          RecvResult.fail "EOF"] newServer).2.1 = false ∧
      subscribeCount (listenForBrokerMessages (fun _ => none)
        [RecvResult.fail "EOF", RecvResult.msg { Body := [104, 105] } (fun _ _ _ => none),
          RecvResult.fail "EOF"] newServer).2.1 = 3 :=
  ⟨fun _ => rfl,
    (listenForBrokerMessages_retries_every_failure (fun _ => none)
      [RecvResult.fail "EOF", RecvResult.msg { Body := [104, 105] } (fun _ _ _ => none),
        RecvResult.fail "EOF"] newServer (fun _ => rfl)).2.1,
    (listenForBrokerMessages_retries_every_failure (fun _ => none)
      [RecvResult.fail "EOF", RecvResult.msg { Body := [104, 105] } (fun _ _ _ => none),
        RecvResult.fail "EOF"] newServer (fun _ => rfl)).2.2.2⟩

/-! ## Lemmas on the gateway's steps -/

theorem Gateway.advance_some (g g2 : Gateway) (i : Nat) (pc pc2 : ListenerPc)
    (effs : List GwEffect) (h : g.advance i pc pc2 effs = some g2) :
    g.listeners.get? i = some pc ∧ g2.srv = g.srv ∧ g2.listeners = g.listeners.set i pc2 ∧
      g2.trace = g.trace ++ effs ∧ g2.exited = g.exited := by
  unfold Gateway.advance at h
  split at h
  · rename_i hp
    cases h
    exact ⟨hp, rfl, rfl, rfl, rfl⟩
  · cases h

theorem gwStep_clients (g g2 : Gateway) (st : GwStep) (h : gwStep g st = some g2) :
    (∃ ws, st = GwStep.connect ws ∧ g2.srv = (serveWs_register g.srv ws).1) ∨
      (∃ ws err, st = GwStep.readFail ws err ∧ g2.srv = (serveWs_readFail g.srv ws err).1) ∨
      (∃ i msg W, st = GwStep.recvMsg i msg W ∧
        g2.srv = (listenForBrokerMessages_forward g.srv msg W).1) ∨
      g2.srv = g.srv := by
  unfold gwStep at h
  split at h
  · cases h
  · split at h
    · cases h; exact Or.inl ⟨_, rfl, rfl⟩
    · cases h; exact Or.inr (Or.inr (Or.inr rfl))
    · cases h; exact Or.inr (Or.inl ⟨_, _, rfl, rfl⟩)
    · exact Or.inr (Or.inr (Or.inr (Gateway.advance_some _ _ _ _ _ _ h).2.1))
    · obtain ⟨g3, h3, rfl⟩ := Option.map_eq_some'.mp h
      exact Or.inr (Or.inr (Or.inr (Gateway.advance_some _ _ _ _ _ _ h3).2.1))
    · obtain ⟨g3, _, rfl⟩ := Option.map_eq_some'.mp h
      exact Or.inr (Or.inr (Or.inl ⟨_, _, _, rfl, rfl⟩))
    · exact Or.inr (Or.inr (Or.inr (Gateway.advance_some _ _ _ _ _ _ h).2.1))
    · exact Or.inr (Or.inr (Or.inr (Gateway.advance_some _ _ _ _ _ _ h).2.1))
    · obtain ⟨g3, h3, rfl⟩ := Option.map_eq_some'.mp h
      exact Or.inr (Or.inr (Or.inr (Gateway.advance_some _ _ _ _ _ _ h3).2.1))
    · exact Or.inr (Or.inr (Or.inr (Gateway.advance_some _ _ _ _ _ _ h).2.1))

/-! ## The gateway: which steps remove an endpoint -/

/-- C7, as stated, fails: with the stream open and endpoint 1 connected, the clients map holds
endpoint 1; after the forwarding of a broker message whose write to endpoint 1 fails it is
empty; and that step is not a read failure. -/
theorem endpoint_removed_by_failed_write :
    (gwRun Gateway.start [GwStep.openStream 0 none, GwStep.connect 1]).map
        (fun g => g.srv.clients.keys) = some [1] ∧
      (gwRun Gateway.start [GwStep.openStream 0 none, GwStep.connect 1,
        GwStep.recvMsg 0 { Body := [104, 105] } (fun _ _ _ => some "broken pipe")]).map
        (fun g => g.srv.clients.keys) = some [] ∧
      ¬ ∃ err, GwStep.recvMsg 0 { Body := [104, 105] } (fun _ _ _ => some "broken pipe")
          = GwStep.readFail 1 err :=
  ⟨rfl, rfl, by simp⟩

/-- C7, amended: in every gateway state, a step after which an endpoint of the clients map is
gone is either a read failure of that endpoint's own `serveWs` loop, or the forwarding of a
broker message whose write to that endpoint failed; no other step removes an endpoint. -/
theorem endpoint_removed_only_by_read_failure_or_failed_write (g g2 : Gateway) (st : GwStep)
    (c : Conn) (hstep : gwStep g st = some g2) (hin : c ∈ g.srv.clients.keys)
    (hout : c ∉ g2.srv.clients.keys) :
    (∃ err, st = GwStep.readFail c err) ∨
      (∃ i msg WriteMessage, st = GwStep.recvMsg i msg WriteMessage ∧
        WriteMessage c TextMessage msg.Body ≠ none) := by
  rcases gwStep_clients g g2 st hstep with ⟨ws, _, hs⟩ | ⟨ws, err, rfl, hs⟩ | ⟨i, msg, W, rfl, hs⟩ | hs
  · rw [hs] at hout
    exact absurd ((GoMap.mem_insert _ _ _).mpr (Or.inr hin)) hout
  · left
    by_cases e : c = ws
    · exact ⟨err, by rw [e]⟩
    · rw [hs] at hout
      exact absurd ((GoMap.mem_delete _ _ _).mpr ⟨e, hin⟩) hout
  · right
    refine ⟨i, msg, W, rfl, fun hw => ?_⟩
    rw [hs] at hout
    exact hout (((forward_spec g.srv msg W).2.2 c).mpr ⟨hin, hw⟩)
  · rw [hs] at hout
    exact absurd hin hout

/-- C7, amended, at a concrete step: endpoint 1 is removed by the forwarding of a message whose
write to it failed. -/
theorem endpoint_removed_only_by_read_failure_or_failed_write_witness :
    (∃ err, GwStep.recvMsg 0 { Body := [104, 105] } (fun _ _ _ => some "broken pipe")
        = GwStep.readFail 1 err) ∨
      (∃ i msg WriteMessage,
        GwStep.recvMsg 0 { Body := [104, 105] } (fun _ _ _ => some "broken pipe")
          = GwStep.recvMsg i msg WriteMessage ∧
        WriteMessage 1 TextMessage msg.Body ≠ none) :=
  endpoint_removed_only_by_read_failure_or_failed_write
    { srv := (serveWs_register newServer 1).1, listeners := [ListenerPc.recv],
      trace := [GwEffect.subscribe none, GwEffect.log "New client connected"], exited := false }
    _ (GwStep.recvMsg 0 { Body := [104, 105] } (fun _ _ _ => some "broken pipe")) 1
    rfl (by decide) (by decide)

/-! ## Lemmas on the listener goroutines -/

theorem listeners_live_is_last (olds : List ListenerPc) (pc q : ListenerPc) (i : Nat)
    (holds : ∀ p ∈ olds, p = ListenerPc.returning ∨ p = ListenerPc.done)
    (hq : q ≠ ListenerPc.returning ∧ q ≠ ListenerPc.done)
    (h : (olds ++ [pc]).get? i = some q) : i = olds.length ∧ pc = q := by
  rw [List.get?_eq_getElem?] at h
  by_cases hi : i < olds.length
  · rw [List.getElem?_append_left hi] at h
    have hm : q ∈ olds := by
      obtain ⟨hlt, he⟩ := List.getElem?_eq_some.mp h
      rw [← he]
      exact List.getElem_mem hlt
    rcases holds q hm with e | e
    · exact absurd e hq.1
    · exact absurd e hq.2
  · rw [List.getElem?_append_right (Nat.le_of_not_lt hi)] at h
    have hlt : i - olds.length < 1 := by
      by_contra hc
      rw [List.getElem?_eq_none (by simpa using Nat.le_of_not_lt hc)] at h
      cases h
    have h0 : i - olds.length = 0 := by omega
    rw [h0] at h
    simp at h
    exact ⟨by omega, h⟩

theorem listeners_returning_is_old (olds : List ListenerPc) (pc : ListenerPc) (i : Nat)
    (hpc : pc ≠ ListenerPc.returning)
    (h : (olds ++ [pc]).get? i = some ListenerPc.returning) : i < olds.length := by
  rw [List.get?_eq_getElem?] at h
  by_contra hi
  rw [List.getElem?_append_right (Nat.le_of_not_lt hi)] at h
  by_cases h0 : i - olds.length = 0
  · rw [h0] at h
    simp at h
    exact hpc h
  · rw [List.getElem?_eq_none (by simp; omega)] at h
    cases h

theorem listeners_set_last (olds : List ListenerPc) (pc q : ListenerPc) :
    (olds ++ [pc]).set olds.length q = olds ++ [q] := by
  simp [List.set_append]

theorem listeners_set_old (olds : List ListenerPc) (pc q : ListenerPc) (i : Nat)
    (hi : i < olds.length) : (olds ++ [pc]).set i q = olds.set i q ++ [pc] := by
  simp [List.set_append, hi]

theorem reconnectView_quiet_serveWs_frame (B : ChatMessage → Option Error) (msg : Bytes) :
    reconnectView (serveWs_frame B msg) = [] := by
  unfold serveWs_frame
  split <;> rfl

theorem reconnectCycles_succ (k : Nat) :
    (List.replicate (k + 1) reconnectCycle).flatten
      = (List.replicate k reconnectCycle).flatten ++ reconnectCycle := by
  rw [List.replicate_succ']
  simp

theorem Gateway.Inv_start : Gateway.start.Inv :=
  ⟨[], ListenerPc.entry, 0, rfl, by simp, by decide, by decide, fun _ => rfl, rfl⟩

theorem Gateway.Inv_advance (g g2 : Gateway) (i : Nat) (pc0 pc2 : ListenerPc)
    (effs : List GwEffect) (olds : List ListenerPc) (pc : ListenerPc)
    (hl : g.listeners = olds ++ [pc])
    (holds : ∀ p ∈ olds, p = ListenerPc.returning ∨ p = ListenerPc.done)
    (h0 : pc0 ≠ ListenerPc.returning ∧ pc0 ≠ ListenerPc.done)
    (h : g.advance i pc0 pc2 effs = some g2) :
    pc = pc0 ∧ g2.listeners = olds ++ [pc2] ∧ g2.trace = g.trace ++ effs ∧
      g2.exited = g.exited := by
  obtain ⟨hg, _, hls, ht, he⟩ := Gateway.advance_some g g2 i pc0 pc2 effs h
  rw [hl] at hg
  obtain ⟨hi, hp⟩ := listeners_live_is_last olds pc pc0 i holds h0 hg
  refine ⟨hp, ?_, ht, he⟩
  rw [hls, hl, hi, listeners_set_last]

theorem gwStep_Inv (g g2 : Gateway) (st : GwStep) (hinv : g.Inv) (h : gwStep g st = some g2) :
    g2.Inv := by
  obtain ⟨olds, pc, k, hl, holds, hp1, hp2, hex, hv⟩ := hinv
  unfold gwStep at h
  split at h
  · cases h
  · rename_i hne
    have hne2 : g.exited = false := by simpa using hne
    rw [hne2] at hv
    split at h
    · cases h
      refine ⟨olds, pc, k, hl, holds, hp1, hp2, hex, ?_⟩
      simp only [reconnectView_append, hv, hne2]
      simp [serveWs_register, reconnectView, reconnectEvent]
    · cases h
      refine ⟨olds, pc, k, hl, holds, hp1, hp2, hex, ?_⟩
      simp only [reconnectView_append, hv, hne2, reconnectView_quiet_serveWs_frame]
      simp
    · cases h
      refine ⟨olds, pc, k, hl, holds, hp1, hp2, hex, ?_⟩
      simp only [reconnectView_append, hv, hne2]
      simp [serveWs_readFail, reconnectView, reconnectEvent]
    · obtain ⟨e1, e2, e3, e4⟩ :=
        Gateway.Inv_advance g g2 _ _ _ _ olds pc hl holds (by decide) h
      subst e1
      refine ⟨olds, ListenerPc.recv, k, e2, holds, by decide, by decide, ?_, ?_⟩
      · rw [e4, hne2]; intro hc; cases hc
      · rw [e3, reconnectView_append, hv]
        simp [openEffects, reconnectView, reconnectEvent, reconnectPartial]
    · obtain ⟨g3, h3, rfl⟩ := Option.map_eq_some'.mp h
      obtain ⟨e1, e2, e3, _⟩ :=
        Gateway.Inv_advance g g3 _ _ _ _ olds pc hl holds (by decide) h3
      subst e1
      refine ⟨olds, ListenerPc.entry, k, e2, holds, by decide, by decide, fun _ => rfl, ?_⟩
      show reconnectView g3.trace = _
      rw [e3, reconnectView_append, hv]
      simp [openEffects, reconnectView, reconnectEvent, reconnectPartial]
    · obtain ⟨g3, h3, rfl⟩ := Option.map_eq_some'.mp h
      obtain ⟨e1, e2, e3, e4⟩ :=
        Gateway.Inv_advance g g3 _ _ _ _ olds pc hl holds (by decide) h3
      subst e1
      refine ⟨olds, ListenerPc.recv, k, e2, holds, by decide, by decide, ?_, ?_⟩
      · show g3.exited = true → _
        rw [e4, hne2]; intro hc; cases hc
      · show reconnectView g3.trace = _
        rw [e3, reconnectView_append, hv, (forward_quiet _ _ _).1]
        simp [reconnectPartial]
    · obtain ⟨e1, e2, e3, e4⟩ :=
        Gateway.Inv_advance g g2 _ _ _ _ olds pc hl holds (by decide) h
      subst e1
      refine ⟨olds, ListenerPc.sleeping, k, e2, holds, by decide, by decide, ?_, ?_⟩
      · rw [e4, hne2]; intro hc; cases hc
      · rw [e3, reconnectView_append, hv]
        simp [reconnectView, reconnectEvent, reconnectPartial]
    · obtain ⟨e1, e2, e3, e4⟩ :=
        Gateway.Inv_advance g g2 _ _ _ _ olds pc hl holds (by decide) h
      subst e1
      refine ⟨olds, ListenerPc.spawning, k, e2, holds, by decide, by decide, ?_, ?_⟩
      · rw [e4, hne2]; intro hc; cases hc
      · rw [e3, reconnectView_append, hv]
        simp [reconnectView, reconnectEvent, reconnectPartial]
    · obtain ⟨g3, h3, rfl⟩ := Option.map_eq_some'.mp h
      obtain ⟨e1, e2, e3, e4⟩ :=
        Gateway.Inv_advance g g3 _ _ _ _ olds pc hl holds (by decide) h3
      subst e1
      refine ⟨olds ++ [ListenerPc.returning], ListenerPc.entry, k + 1, ?_, ?_, by decide,
        by decide, fun _ => rfl, ?_⟩
      · show g3.listeners ++ _ = _
        rw [e2]
      · intro p hp
        rcases List.mem_append.mp hp with hp | hp
        · exact holds p hp
        · exact Or.inl (by simpa using hp)
      · show reconnectView g3.trace = _ ++ reconnectPartial _ g3.exited
        rw [e3, e4, hne2, reconnectView_append, hv, reconnectCycles_succ]
        simp [reconnectView, reconnectEvent, reconnectPartial, reconnectCycle]
    · rename_i j
      obtain ⟨hg, _, hls, ht, he⟩ := Gateway.advance_some _ _ _ _ _ _ h
      rw [hl] at hg
      have hi := listeners_returning_is_old olds pc j hp1 hg
      refine ⟨olds.set j ListenerPc.done, pc, k, ?_, ?_, hp1, hp2, ?_, ?_⟩
      · rw [hls, hl, listeners_set_old olds pc _ j hi]
      · intro p hp
        rcases List.mem_or_eq_of_mem_set hp with hp | hp
        · exact holds p hp
        · exact Or.inr hp
      · rw [he]; exact hex
      · rw [ht, he, hne2]
        simpa using hv

theorem gwRun_Inv (steps : List GwStep) (g g2 : Gateway) (hinv : g.Inv)
    (h : gwRun g steps = some g2) : g2.Inv := by
  induction steps generalizing g with
  | nil =>
    simp only [gwRun, Option.some.injEq] at h
    exact h ▸ hinv
  | cons st rest ih =>
    simp only [gwRun] at h
    obtain ⟨g3, h3, h4⟩ := Option.bind_eq_some.mp h
    exact ih g3 (gwStep_Inv g g3 st hinv h3) h4

theorem listeners_filter_olds (olds : List ListenerPc) (f : ListenerPc → Bool)
    (holds : ∀ p ∈ olds, p = ListenerPc.returning ∨ p = ListenerPc.done)
    (h1 : f ListenerPc.returning = false) (h2 : f ListenerPc.done = false) :
    olds.filter f = [] := by
  refine List.filter_eq_nil_iff.mpr (fun p hp => ?_)
  rcases holds p hp with e | e
  · simp [e, h1]
  · simp [e, h2]

theorem reconnectPartial_initial (pc : ListenerPc) (b : Bool) :
    reconnectPartial pc b <+: reconnectCycle := by
  cases pc <;> cases b <;> simp [reconnectPartial, reconnectCycle, List.prefix_iff_eq_take]

/-! ## The gateway: reconnecting the subscription -/

/-- C8: in every state the gateway reaches from its start, at most one listener goroutine is
in `stream.Recv()`, exactly one has not passed its `go` statement, and every listener that has
a successor has passed it (it can only return).  The `ReceiveMessages` calls made, plus one
while the newest call is still to come (a listener is in `time.Sleep`, before `go`, or before
`ReceiveMessages`), are one more than the failed receives; and the reconnect steps so far are
a beginning of the repetition of (open, fail, sleep two seconds, start the replacement). -/
theorem reconnect_one_subscribe_per_failure (steps : List GwStep) (g : Gateway)
    (h : gwRun Gateway.start steps = some g) :
    g.reading ≤ 1 ∧ g.live = 1 ∧
      (∀ i pc, g.listeners.get? i = some pc → i + 1 < g.listeners.length →
        pc = ListenerPc.returning ∨ pc = ListenerPc.done) ∧
      subscribeCount g.trace + g.pending = recvFailCount g.trace + 1 ∧
      ∃ k, reconnectView g.trace <+: (List.replicate k reconnectCycle).flatten := by
  obtain ⟨olds, pc, k, hl, holds, hp1, hp2, hex, hv⟩ := gwRun_Inv steps _ g Gateway.Inv_start h
  have hf1 : olds.filter (fun pc => decide (pc = ListenerPc.recv)) = [] :=
    listeners_filter_olds olds _ holds (by decide) (by decide)
  have hf2 : olds.filter
      (fun pc => decide (pc ≠ ListenerPc.returning) && decide (pc ≠ ListenerPc.done)) = [] :=
    listeners_filter_olds olds _ holds (by decide) (by decide)
  have hf3 : olds.filter (fun pc => decide (pc = ListenerPc.entry)
      || decide (pc = ListenerPc.sleeping) || decide (pc = ListenerPc.spawning)) = [] :=
    listeners_filter_olds olds _ holds (by decide) (by decide)
  refine ⟨?_, ?_, ?_, ?_, ?_⟩
  · simp only [Gateway.reading, hl, List.filter_append, hf1, List.nil_append]
    exact (List.length_filter_le _ _).trans (by simp)
  · simp only [Gateway.live, hl, List.filter_append, hf2, List.nil_append]
    simp [List.filter_cons, hp1, hp2]
  · intro i q hq hi
    rw [hl, List.get?_eq_getElem?] at hq
    rw [hl] at hi
    have hi2 : i < olds.length := by simpa using hi
    rw [List.getElem?_append_left hi2] at hq
    obtain ⟨hlt, he⟩ := List.getElem?_eq_some.mp hq
    exact holds q (he ▸ List.getElem_mem hlt)
  · have hpend : g.pending = if g.exited then 0 else
        ([pc].filter (fun pc => decide (pc = ListenerPc.entry)
          || decide (pc = ListenerPc.sleeping) || decide (pc = ListenerPc.spawning))).length := by
      simp only [Gateway.pending, hl, List.filter_append, hf3, List.nil_append]
    rw [hpend]
    simp only [subscribeCount, recvFailCount, hv, List.count_append, count_subscribed_cycles,
      count_failed_cycles]
    cases hb : g.exited with
    | true =>
      rw [hex hb]
      simp [reconnectPartial]
    | false =>
      cases pc <;> simp [reconnectPartial, List.count_cons] at hp1 hp2 ⊢
  · refine ⟨k + 1, ?_⟩
    rw [hv, reconnectCycles_succ]
    exact (List.prefix_append_right_inj _).mpr (reconnectPartial_initial pc g.exited)

/-- C8, at a concrete run: the stream is opened, a receive fails, the listener sleeps, starts
its replacement and returns, and the replacement opens its stream: two `ReceiveMessages` calls
for one failure, and one listener reading. -/
theorem reconnect_one_subscribe_per_failure_witness :
    gwRun Gateway.start [GwStep.openStream 0 none, GwStep.recvFail 0 "EOF", GwStep.wake 0,
        GwStep.spawn 0, GwStep.ret 0, GwStep.openStream 1 none]
      = some ⟨newServer, [ListenerPc.done, ListenerPc.recv],
          [GwEffect.subscribe none, GwEffect.recvFailed "EOF",
            GwEffect.log "error receiving message from broker: EOF",
            GwEffect.sleep 2000000000, GwEffect.spawn, GwEffect.subscribe none], false⟩ ∧
      Gateway.reading ⟨newServer, [ListenerPc.done, ListenerPc.recv],
          [GwEffect.subscribe none, GwEffect.recvFailed "EOF",
            GwEffect.log "error receiving message from broker: EOF",
            GwEffect.sleep 2000000000, GwEffect.spawn, GwEffect.subscribe none], false⟩ ≤ 1 :=
  ⟨rfl,
    (reconnect_one_subscribe_per_failure [GwStep.openStream 0 none, GwStep.recvFail 0 "EOF",
      GwStep.wake 0, GwStep.spawn 0, GwStep.ret 0, GwStep.openStream 1 none] _ rfl).1⟩

/-! ## Lemmas on the whole relay -/

theorem count_eq_one_of_nodup_mem {α : Type} [BEq α] [LawfulBEq α] (l : List α) (x : α)
    (hn : l.Nodup) (hm : x ∈ l) : l.count x = 1 := by
  induction l with
  | nil => simp at hm
  | cons y rest ih =>
    have hnd := List.nodup_cons.mp hn
    by_cases e : y = x
    · subst e
      simp [List.count_cons, List.count_eq_zero_of_not_mem hnd.1]
    · have hr : x ∈ rest := by
        rcases List.mem_cons.mp hm with h | h
        · exact absurd h.symm e
        · exact h
      simp [List.count_cons, ih hnd.2 hr, e]

theorem forwardLoop_all_ok (W : Conn → Nat → Bytes → Option Error) (data : Bytes)
    (hW : ∀ c, W c TextMessage data = none) (l : List Conn) (m : GoMap Conn)
    (hsub : ∀ c ∈ l, c ∈ m.keys) :
    (forwardLoop W data l m).2 = l.map (fun c => GwEffect.write c TextMessage data none) := by
  induction l with
  | nil => rfl
  | cons x rest ih =>
    have hx : m.contains x = true := by simp [GoMap.contains, hsub x (by simp)]
    simp only [forwardLoop, hx, hW x, if_true, List.map_cons]
    rw [ih (fun c hc => hsub c (by simp [hc]))]

theorem relayFrame_all_ok (b : brokerServer) (gateways : Stream → server) (a : Stream)
    (ws : Conn) (Send : Stream → ChatMessage → Option Error)
    (W : Stream → Conn → Nat → Bytes → Option Error) (frame : Bytes)
    (hS : ∀ sub msg, Send sub msg = none) (hW : ∀ sub c t d, W sub c t d = none) :
    relayFrame b gateways a ws Send W frame
      = b.subscribers.keys.flatMap (fun sub =>
          (gateways sub).clients.keys.map
            (fun c => (sub, GwEffect.write c TextMessage frame none))) := by
  have hp : publishCalls (serveWsLoop ws (fun _ msg => (BroadcastMessage b msg Send).err)
      [ReadResult.frame frame] 0 (gateways a)).2.1
        = [({ Body := frame }, (BroadcastMessage b { Body := frame } Send).err)] := by
    simp [serveWsLoop, publishCalls_serveWs_frame]
  unfold relayFrame
  rw [hp]
  simp only [List.flatMap_cons, List.flatMap_nil, List.append_nil]
  have hsa : sendAttempts (BroadcastMessage b { Body := frame } Send).effects
      = b.subscribers.keys.map (fun sub => (sub, ({ Body := frame } : ChatMessage), none)) := by
    rw [show (BroadcastMessage b { Body := frame } Send).effects
      = broadcastLoop Send { Body := frame } b.subscribers.keys from rfl,
      sendAttempts_broadcastLoop]
    simp [hS]
  rw [hsa]
  generalize b.subscribers.keys = subs
  induction subs with
  | nil => rfl
  | cons x rest ih =>
    simp only [List.map_cons, List.flatMap_cons, ih]
    congr 1
    simp only [listenForBrokerMessages_forward]
    rw [forwardLoop_all_ok (W x) frame (fun c => hW x c _ _) _ _ (fun _ h => h)]
    simp

theorem relay_nodup (subs : List Stream) (gateways : Stream → server) (frame : Bytes)
    (hn : subs.Nodup) :
    (subs.flatMap (fun sub =>
      (gateways sub).clients.keys.map
        (fun c => (sub, GwEffect.write c TextMessage frame none)))).Nodup := by
  refine List.nodup_flatMap.mpr ⟨fun sub _ => ?_, ?_⟩
  · refine (gateways sub).clients.nodup.map ?_
    intro c1 c2 h
    simpa using h
  · refine List.Pairwise.imp ?_ hn
    intro x y hxy e hx hy
    obtain ⟨_, _, rfl⟩ := List.mem_map.mp hx
    obtain ⟨_, _, h2⟩ := List.mem_map.mp hy
    exact hxy (by simpa using (congrArg Prod.fst h2).symm)

/-! ## Broker and gateways together: echo-back -/

/-- C9: when every send and every write succeeds, one frame read by `serveWs` from endpoint
`ws` of the gateway on stream `a` is written, as it was read, exactly once to every endpoint
of every gateway whose stream is registered, and nothing else is written or closed; the
sender's gateway and the sending endpoint are among them whenever they are registered. -/
theorem echo_back (b : brokerServer) (gateways : Stream → server) (a : Stream) (ws : Conn)
    (Send : Stream → ChatMessage → Option Error)
    (WriteMessage : Stream → Conn → Nat → Bytes → Option Error) (frame : Bytes)
    (hS : ∀ sub msg, Send sub msg = none) (hW : ∀ sub c t d, WriteMessage sub c t d = none) :
    (∀ sub c, sub ∈ b.subscribers.keys → c ∈ (gateways sub).clients.keys →
        (relayFrame b gateways a ws Send WriteMessage frame).count
          (sub, GwEffect.write c TextMessage frame none) = 1) ∧
      (∀ sub e, (sub, e) ∈ relayFrame b gateways a ws Send WriteMessage frame →
        sub ∈ b.subscribers.keys ∧
        ∃ c, c ∈ (gateways sub).clients.keys ∧ e = GwEffect.write c TextMessage frame none) ∧
      (a ∈ b.subscribers.keys → ws ∈ (gateways a).clients.keys →
        (relayFrame b gateways a ws Send WriteMessage frame).count
          (a, GwEffect.write ws TextMessage frame none) = 1) := by
  have he := relayFrame_all_ok b gateways a ws Send WriteMessage frame hS hW
  have hcount : ∀ sub c, sub ∈ b.subscribers.keys → c ∈ (gateways sub).clients.keys →
      (relayFrame b gateways a ws Send WriteMessage frame).count
        (sub, GwEffect.write c TextMessage frame none) = 1 := by
    intro sub c hsub hc
    rw [he]
    refine count_eq_one_of_nodup_mem _ _ (relay_nodup _ gateways frame b.subscribers.nodup) ?_
    exact List.mem_flatMap.mpr ⟨sub, hsub, List.mem_map.mpr ⟨c, hc, rfl⟩⟩
  refine ⟨hcount, ?_, hcount a ws⟩
  intro sub e hm
  rw [he] at hm
  obtain ⟨x, hx, hxe⟩ := List.mem_flatMap.mp hm
  obtain ⟨c, hc, h2⟩ := List.mem_map.mp hxe
  have e1 : x = sub := congrArg Prod.fst h2
  have e2 : GwEffect.write c TextMessage frame none = e := congrArg Prod.snd h2
  subst e1
  exact ⟨hx, c, hc, e2.symm⟩

/-- C9, at the scenario of two gateways with one endpoint each: the endpoint of gateway 1 sends
"hello"; the endpoint of gateway 1 and the endpoint of gateway 2 are each written "hello"
once. -/
theorem echo_back_witness :
    (relayFrame (ReceiveMessages_register (ReceiveMessages_register newBrokerServer 1).1 2).1
        (fun sub => (serveWs_register newServer (10 * sub)).1) 1 10
        (fun _ _ => none) (fun _ _ _ _ => none) [104, 101, 108, 108, 111]).count
          (1, GwEffect.write 10 TextMessage [104, 101, 108, 108, 111] none) = 1 ∧
      (relayFrame (ReceiveMessages_register (ReceiveMessages_register newBrokerServer 1).1 2).1
        (fun sub => (serveWs_register newServer (10 * sub)).1) 1 10
        (fun _ _ => none) (fun _ _ _ _ => none) [104, 101, 108, 108, 111]).count
          (2, GwEffect.write 20 TextMessage [104, 101, 108, 108, 111] none) = 1 :=
  ⟨(echo_back _ _ 1 10 _ _ [104, 101, 108, 108, 111] (fun _ _ => rfl) (fun _ _ _ _ => rfl)).1
      1 10 (by decide) (by decide),
    (echo_back _ _ 1 10 _ _ [104, 101, 108, 108, 111] (fun _ _ => rfl) (fun _ _ _ _ => rfl)).1
      2 20 (by decide) (by decide)⟩

end LetsGoChat
